import Mathlib

/-!
A shallow embedding of the Go wiki server (src/wiki.go) and proofs of its
specification's claims.

Modelling conventions:
* Byte sequences (Go `[]byte`) are `List Nat`; Go's `string`/`[]byte`
  conversions preserve the underlying bytes, so form values are modelled
  directly as byte sequences.
* The file system is explicit state: an association list from file name to
  file (content plus permission bits), threaded through the handlers.
  Environment-induced I/O faults are modelled by two fault sets: `readErr`
  (file names whose read fails, covering missing-file, permission and I/O
  errors alike, all of which `ioutil.ReadFile` reports as a non-nil error)
  and `writeErr` (file names whose write fails, with the error text that
  `err.Error()` would carry).
* `ioutil.WriteFile(name, data, perm)` is modelled as creating/truncating
  the file with the given content and permission bits, or failing when the
  environment faults the write.
* HTML template execution (`html/template`) is the external rendering
  collaborator: `renderTemplate` hands the template name and page to it,
  modelled as the `Response.render` result.
* The HTTP transport delivers a `Request` (method, URL path, parsed form
  fields); handlers produce a `Response` together with the list of
  file-system accesses they performed.
-/

namespace GoWiki

/-- Go `[]byte`: a raw byte sequence. -/
abbrev Bytes := List Nat

/-- A stored file: its raw content and its permission bits. -/
structure File where
  content : Bytes
  perm : Nat
deriving Repr, DecidableEq

/-- The server's working directory: files by name, plus the environment's
fault sets (reads that fail; writes that fail, with their error text). -/
structure FS where
  files : List (String × File)
  readErr : List String
  writeErr : List (String × String)
deriving Repr, DecidableEq

/-- `type Page struct { Title string; Body []byte }` from src/wiki.go. -/
structure Page where
  Title : String
  Body : Bytes
deriving Repr, DecidableEq

/-- The `title + ".txt"` file-naming transform used by both `Page.save`
and `loadPage` in src/wiki.go. -/
def pageFilename (title : String) : String := title ++ ".txt"

/-- `ioutil.WriteFile(name, data, perm)`: creates the file or truncates
any existing contents, writing `data` with permission bits `perm`; fails
with an error when the environment faults the write of `name`. -/
def writeFile (fs : FS) (name : String) (data : Bytes) (perm : Nat) :
    Except String FS :=
  match fs.writeErr.lookup name with
  | some e => Except.error e
  | none => Except.ok ⟨(name, ⟨data, perm⟩) :: fs.files, fs.readErr, fs.writeErr⟩

/-- `ioutil.ReadFile(name)`: the full contents of the file, or `none` on
any failure (missing file, permission error, I/O error). -/
def readFile (fs : FS) (name : String) : Option Bytes :=
  if name ∈ fs.readErr then none
  else (fs.files.lookup name).map File.content

/-- `func (p *Page) save() error` from src/wiki.go:
writes `p.Body` to `p.Title + ".txt"` with mode 0600. -/
def Page.save (fs : FS) (p : Page) : Except String FS :=
  writeFile fs (pageFilename p.Title) p.Body 0o600

/-- `func loadPage(title string) (*Page, error)` from src/wiki.go:
reads `title + ".txt"`; on any read error returns no page, otherwise the
page with the requested title and the file contents as body. -/
def loadPage (fs : FS) (title : String) : Option Page :=
  match readFile fs (pageFilename title) with
  | none => none
  | some body => some ⟨title, body⟩

/-- The three operations named in the routing pattern of src/wiki.go. -/
inductive Op where
  | edit
  | save
  | view
deriving Repr, DecidableEq

/-- The character class `[a-zA-Z0-9]` of the `validPath` regular
expression. -/
def isTitleChar (c : Char) : Bool :=
  (97 ≤ c.toNat && c.toNat ≤ 122) ||
  (65 ≤ c.toNat && c.toNat ≤ 90) ||
  (48 ≤ c.toNat && c.toNat ≤ 57)

/-- Matches the leading `/(edit|save|view)/` of the routing pattern,
returning the operation and the remaining characters of the path. -/
def stripOp : List Char → Option (Op × List Char)
  | '/' :: 'e' :: 'd' :: 'i' :: 't' :: '/' :: rest => some (Op.edit, rest)
  | '/' :: 's' :: 'a' :: 'v' :: 'e' :: '/' :: rest => some (Op.save, rest)
  | '/' :: 'v' :: 'i' :: 'e' :: 'w' :: '/' :: rest => some (Op.view, rest)
  | _ => none

/-- `validPath.FindStringSubmatch(path)` for the anchored pattern
`^/(edit|save|view)/([a-zA-Z0-9]+)$` from src/wiki.go: on a match,
the operation (first group) and title (second group); otherwise `none`. -/
def validPath (path : String) : Option (Op × String) :=
  match stripOp path.data with
  | none => none
  | some (op, rest) =>
    if !rest.isEmpty && rest.all isTitleChar then some (op, ⟨rest⟩)
    else none

/-- A title accepted by the `([a-zA-Z0-9]+)` capture group. -/
def isValidTitle (t : String) : Bool :=
  !t.data.isEmpty && t.data.all isTitleChar

/-- An inbound HTTP request: method, URL path, and parsed form fields
(each value as its byte sequence). -/
structure Request where
  method : String
  path : String
  form : List (String × Bytes)
deriving Repr, DecidableEq

/-- The responses the handlers in src/wiki.go can produce. -/
inductive Response where
  | notFound
  | redirect (status : Nat) (location : String)
  | render (tmpl : String) (page : Page)
  | internalError (msg : String)
deriving Repr, DecidableEq

/-- `r.FormValue(key)`: the submitted value of the field, or the empty
byte sequence when the field is absent. -/
def formValue (r : Request) (key : String) : Bytes :=
  (r.form.lookup key).getD []

/-- `renderTemplate(w, tmpl, p)` from src/wiki.go: hands the template
name and page to the external `html/template` collaborator. -/
def renderTemplate (tmpl : String) (p : Page) : Response :=
  Response.render tmpl p

/-- One file-system access performed while handling a request. -/
inductive Access where
  | read (name : String)
  | write (name : String)
deriving Repr, DecidableEq

/-- The outcome of handling one request: the resulting file-system state,
the file-system accesses performed, and the response. -/
abbrev HandlerResult := FS × List Access × Response

/-- `func viewHandler(w, r, title)` from src/wiki.go: loads the page;
on error redirects (302 Found) to `/edit/<title>`, otherwise renders the
"view" template with the loaded page. -/
def viewHandler (fs : FS) (r : Request) (title : String) : HandlerResult :=
  match loadPage fs title with
  | none =>
    (fs, [Access.read (pageFilename title)],
      Response.redirect 302 ("/edit/" ++ title))
  | some p =>
    (fs, [Access.read (pageFilename title)], renderTemplate "view" p)

/-- `func editHandler(w, r, title)` from src/wiki.go: loads the page; on
error substitutes `&Page{Title: title}` (whose Body is the zero value,
the empty byte sequence); renders the "edit" template. -/
def editHandler (fs : FS) (r : Request) (title : String) : HandlerResult :=
  match loadPage fs title with
  | none =>
    (fs, [Access.read (pageFilename title)], renderTemplate "edit" ⟨title, []⟩)
  | some p =>
    (fs, [Access.read (pageFilename title)], renderTemplate "edit" p)

/-- `func saveHandler(w, r, title)` from src/wiki.go: takes the "body"
form field, builds `&Page{Title: title, Body: []byte(body)}`, saves it;
on error responds 500 with the error text, on success redirects
(302 Found) to `/view/<title>`. -/
def saveHandler (fs : FS) (r : Request) (title : String) : HandlerResult :=
  let body := formValue r "body"
  let p : Page := ⟨title, body⟩
  match Page.save fs p with
  | Except.error e =>
    (fs, [Access.write (pageFilename title)], Response.internalError e)
  | Except.ok fsNew =>
    (fsNew, [Access.write (pageFilename title)],
      Response.redirect 302 ("/view/" ++ title))

/-- `func makeHandler(fn)` from src/wiki.go: matches the request path
against `validPath`; with no match responds `http.NotFound` and returns,
otherwise calls `fn` with the title (second subexpression). -/
def makeHandler (fn : FS → Request → String → HandlerResult)
    (fs : FS) (r : Request) : HandlerResult :=
  match validPath r.path with
  | none => (fs, [], Response.notFound)
  | some (_, title) => fn fs r title

/-- The mux's pattern match: a pattern ending in `/` matches every path
it is a prefix of. -/
def hasUrlPrefix (path pat : String) : Bool :=
  pat.data.isPrefixOf path.data

/-- The registrations in `main` of src/wiki.go: `http.HandleFunc` routes
by path prefix `/view/`, `/save/`, `/edit/` to the wrapped handlers; any
other path gets the mux's 404. -/
def serve (fs : FS) (r : Request) : HandlerResult :=
  if hasUrlPrefix r.path "/view/" then makeHandler viewHandler fs r
  else if hasUrlPrefix r.path "/save/" then makeHandler saveHandler fs r
  else if hasUrlPrefix r.path "/edit/" then makeHandler editHandler fs r
  else (fs, [], Response.notFound)

/-! ## Claims -/

/-- C1: for every title T matching `[a-zA-Z0-9]+` and every body B,
a successful `save(T, B)` (which writes B to the file `T + ".txt"`)
followed by `load(T)` succeeds and returns a Page whose Body equals B
(assuming the environment does not fault the read back). -/
theorem save_load_roundtrip (fs : FS) (T : String) (B : Bytes) (fsNew : FS)
    (hT : isValidTitle T = true)
    (hsave : Page.save fs ⟨T, B⟩ = Except.ok fsNew)
    (hread : pageFilename T ∉ fsNew.readErr) :
    loadPage fsNew T = some ⟨T, B⟩ := by
  unfold Page.save writeFile at hsave
  cases hlk : fs.writeErr.lookup (pageFilename T) with
  | some e => rw [hlk] at hsave; exact absurd hsave (by simp)
  | none =>
    rw [hlk] at hsave
    simp only [Except.ok.injEq] at hsave
    subst hsave
    have hr : pageFilename T ∉ fs.readErr := hread
    simp [loadPage, readFile, hr, List.lookup]

/-- Witness for C1 at title "Test", body [104, 105]. -/
theorem save_load_roundtrip_witness :
    loadPage ⟨[("Test.txt", ⟨[104, 105], 0o600⟩)], [], []⟩ "Test" =
      some ⟨"Test", [104, 105]⟩ :=
  save_load_roundtrip ⟨[], [], []⟩ "Test" [104, 105]
    ⟨[("Test.txt", ⟨[104, 105], 0o600⟩)], [], []⟩
    (by decide) rfl (by simp)

/-- C2: for every request whose path does not match
`^/(edit|save|view)/([a-zA-Z0-9]+)$`, the dispatch wrapper responds
404 Not Found, invokes no operation handler (the result is the same for
every handler `fn`, which is never called), and performs no file-system
access (empty access list, state unchanged). -/
theorem invalid_path_404 (fn : FS → Request → String → HandlerResult)
    (fs : FS) (r : Request) (h : validPath r.path = none) :
    makeHandler fn fs r = (fs, [], Response.notFound) := by
  simp [makeHandler, h]

/-- Witness for C2 at path "/etc/passwd". -/
theorem invalid_path_404_witness :
    makeHandler viewHandler ⟨[], [], []⟩ ⟨"GET", "/etc/passwd", []⟩ =
      (⟨[], [], []⟩, [], Response.notFound) :=
  invalid_path_404 viewHandler ⟨[], [], []⟩ ⟨"GET", "/etc/passwd", []⟩ rfl

/-- C3: every title the validator extracts is a nonempty string of
characters from `[a-zA-Z0-9]`, hence contains no '/' and no '.'; in
particular "/view/../etc/passwd" is rejected outright. -/
theorem extracted_title_safe :
    (∀ p op t, validPath p = some (op, t) →
      t.data ≠ [] ∧ (∀ c ∈ t.data, isTitleChar c = true) ∧
      '/' ∉ t.data ∧ '.' ∉ t.data) ∧
    validPath "/view/../etc/passwd" = none := by
  constructor
  · intro p op t h
    unfold validPath at h
    split at h
    · exact absurd h (by simp)
    · split at h
      · rename_i cs hseq hc
        simp only [Option.some.injEq, Prod.mk.injEq] at h
        obtain ⟨-, ht⟩ := h
        subst ht
        simp only [Bool.and_eq_true, Bool.not_eq_true'] at hc
        obtain ⟨hne, hall⟩ := hc
        have hall := List.all_eq_true.mp hall
        refine ⟨?_, hall, ?_, ?_⟩
        · intro hnil
          have hn2 : cs = [] := hnil
          rw [hn2] at hne
          simp at hne
        · intro hmem
          exact absurd (hall _ hmem) (by decide)
        · intro hmem
          exact absurd (hall _ hmem) (by decide)
      · exact absurd h (by simp)
  · rfl

/-- Witness for C3: the title extracted from "/view/Abc" contains no '/'
and no '.'. -/
theorem extracted_title_safe_witness :
    '/' ∉ ("Abc" : String).data ∧ '.' ∉ ("Abc" : String).data :=
  ⟨(extracted_title_safe.1 "/view/Abc" Op.view "Abc" rfl).2.2.1,
   (extracted_title_safe.1 "/view/Abc" Op.view "Abc" rfl).2.2.2⟩

/-- C4 counterexample: a DELETE request (a method outside every listed
set) to "/edit/A" still executes the edit operation handler: the dispatch
produces exactly the edit handler's outcome (it reads the page file and
renders the "edit" template), not a rejection. -/
theorem method_not_restricted_cx :
    ("DELETE" : String) ≠ "GET" ∧
    serve ⟨[], [], []⟩ ⟨"DELETE", "/edit/A", []⟩ =
      editHandler ⟨[], [], []⟩ ⟨"DELETE", "/edit/A", []⟩ "A" ∧
    serve ⟨[], [], []⟩ ⟨"DELETE", "/edit/A", []⟩ =
      (⟨[], [], []⟩, [Access.read "A.txt"], Response.render "edit" ⟨"A", []⟩) :=
  ⟨by decide, rfl, rfl⟩

/-- C4 amended: the code imposes no per-operation method restriction.
For every request whose path matches the routing pattern, the dispatch
wrapper invokes the wrapped operation handler with the extracted title,
whatever the request's method; the method is never consulted. -/
theorem dispatch_ignores_method (fn : FS → Request → String → HandlerResult)
    (fs : FS) (r : Request) (op : Op) (t : String)
    (h : validPath r.path = some (op, t)) :
    makeHandler fn fs r = fn fs r t := by
  simp [makeHandler, h]

/-- Witness for the amended C4: a DELETE to "/view/A" reaches viewHandler. -/
theorem dispatch_ignores_method_witness :
    makeHandler viewHandler ⟨[], [], []⟩ ⟨"DELETE", "/view/A", []⟩ =
      viewHandler ⟨[], [], []⟩ ⟨"DELETE", "/view/A", []⟩ "A" :=
  dispatch_ignores_method viewHandler ⟨[], [], []⟩
    ⟨"DELETE", "/view/A", []⟩ Op.view "A" rfl

/-- C5: for every valid title, when loading the page fails the view
handler responds with a redirect (status 302 Found) to "/edit/<title>";
when loading succeeds it renders the "view" template with the loaded
page. -/
theorem view_handler_spec (fs : FS) (r : Request) (title : String)
    (hT : isValidTitle title = true) :
    (loadPage fs title = none →
      viewHandler fs r title =
        (fs, [Access.read (pageFilename title)],
          Response.redirect 302 ("/edit/" ++ title))) ∧
    (∀ p, loadPage fs title = some p →
      viewHandler fs r title =
        (fs, [Access.read (pageFilename title)],
          Response.render "view" p)) := by
  constructor
  · intro h
    simp [viewHandler, h]
  · intro p h
    simp [viewHandler, h, renderTemplate]

/-- Witness for C5: viewing the absent page "A" redirects to "/edit/A". -/
theorem view_handler_spec_witness :
    viewHandler ⟨[], [], []⟩ ⟨"GET", "/view/A", []⟩ "A" =
      (⟨[], [], []⟩, [Access.read "A.txt"], Response.redirect 302 "/edit/A") :=
  (view_handler_spec ⟨[], [], []⟩ ⟨"GET", "/view/A", []⟩ "A" (by decide)).1 rfl

/-- C6: for every valid title, when loading the page fails the edit
handler renders the "edit" template with a page holding the requested
title and an empty body (no error response); when loading succeeds it
renders the "edit" template with the loaded page. -/
theorem edit_handler_spec (fs : FS) (r : Request) (title : String)
    (hT : isValidTitle title = true) :
    (loadPage fs title = none →
      editHandler fs r title =
        (fs, [Access.read (pageFilename title)],
          Response.render "edit" ⟨title, []⟩)) ∧
    (∀ p, loadPage fs title = some p →
      editHandler fs r title =
        (fs, [Access.read (pageFilename title)],
          Response.render "edit" p)) := by
  constructor
  · intro h
    simp [editHandler, h, renderTemplate]
  · intro p h
    simp [editHandler, h, renderTemplate]

/-- Witness for C6: editing the absent page "A" renders an empty-body
edit page. -/
theorem edit_handler_spec_witness :
    editHandler ⟨[], [], []⟩ ⟨"GET", "/edit/A", []⟩ "A" =
      (⟨[], [], []⟩, [Access.read "A.txt"],
        Response.render "edit" ⟨"A", []⟩) :=
  (edit_handler_spec ⟨[], [], []⟩ ⟨"GET", "/edit/A", []⟩ "A" (by decide)).1 rfl

/-- C7: for every valid title, the save handler takes the "body" form
field (an absent field yields the empty body), builds Page{title, body}
and saves it; when the write fails it responds 500 with the error text
and issues no redirect, and when the write succeeds the file
`<title>.txt` holds the submitted body and the response is a redirect
(302 Found) to "/view/<title>". -/
theorem save_handler_spec (fs : FS) (r : Request) (title : String)
    (hT : isValidTitle title = true) :
    (r.form.lookup "body" = none → formValue r "body" = []) ∧
    (∀ e, fs.writeErr.lookup (pageFilename title) = some e →
      saveHandler fs r title =
        (fs, [Access.write (pageFilename title)],
          Response.internalError e)) ∧
    (fs.writeErr.lookup (pageFilename title) = none →
      saveHandler fs r title =
        (⟨(pageFilename title, ⟨formValue r "body", 0o600⟩) :: fs.files,
            fs.readErr, fs.writeErr⟩,
          [Access.write (pageFilename title)],
          Response.redirect 302 ("/view/" ++ title))) := by
  refine ⟨?_, ?_, ?_⟩
  · intro h
    simp [formValue, h]
  · intro e h
    simp [saveHandler, Page.save, writeFile, h]
  · intro h
    simp [saveHandler, Page.save, writeFile, h]

/-- Witness for C7: a faulted write to "A.txt" yields 500 with the error
text, and a clean save of body [104] to "B" redirects to "/view/B". -/
theorem save_handler_spec_witness :
    (saveHandler ⟨[], [], [("A.txt", "disk full")]⟩
        ⟨"POST", "/save/A", [("body", [104])]⟩ "A" =
      (⟨[], [], [("A.txt", "disk full")]⟩, [Access.write "A.txt"],
        Response.internalError "disk full")) ∧
    (saveHandler ⟨[], [], []⟩ ⟨"POST", "/save/B", [("body", [104])]⟩ "B" =
      (⟨[("B.txt", ⟨[104], 0o600⟩)], [], []⟩, [Access.write "B.txt"],
        Response.redirect 302 "/view/B")) :=
  ⟨(save_handler_spec ⟨[], [], [("A.txt", "disk full")]⟩
      ⟨"POST", "/save/A", [("body", [104])]⟩ "A" (by decide)).2.1
      "disk full" rfl,
   (save_handler_spec ⟨[], [], []⟩
      ⟨"POST", "/save/B", [("body", [104])]⟩ "B" (by decide)).2.2 rfl⟩

/-- C8: for every page, when the environment does not fault the write,
`Page.save` succeeds and the resulting state has the file
`<Title>.txt` holding exactly the Body bytes with permission bits 0600
(creating the file or shadowing — truncating — any previous contents);
the rest of the state is untouched. -/
theorem page_save_spec (fs : FS) (p : Page)
    (h : fs.writeErr.lookup (pageFilename p.Title) = none) :
    ∃ fsNew, Page.save fs p = Except.ok fsNew ∧
      fsNew.files.lookup (pageFilename p.Title) = some ⟨p.Body, 0o600⟩ ∧
      fsNew.readErr = fs.readErr ∧ fsNew.writeErr = fs.writeErr := by
  refine ⟨⟨(pageFilename p.Title, ⟨p.Body, 0o600⟩) :: fs.files,
      fs.readErr, fs.writeErr⟩, ?_, ?_, rfl, rfl⟩
  · simp [Page.save, writeFile, h]
  · simp [List.lookup]

/-- Witness for C8 at page ⟨"A", [1, 2]⟩ on the empty state. -/
theorem page_save_spec_witness :
    ∃ fsNew, Page.save ⟨[], [], []⟩ ⟨"A", [1, 2]⟩ = Except.ok fsNew ∧
      fsNew.files.lookup (pageFilename "A") = some ⟨[1, 2], 0o600⟩ ∧
      fsNew.readErr = [] ∧ fsNew.writeErr = [] :=
  page_save_spec ⟨[], [], []⟩ ⟨"A", [1, 2]⟩ rfl

/-- C9: the title-to-filename transform `T ↦ T ++ ".txt"` is injective
on valid titles: distinct titles never share a backing file name. -/
theorem filename_injective (T1 T2 : String)
    (h1 : isValidTitle T1 = true) (h2 : isValidTitle T2 = true)
    (hne : T1 ≠ T2) : pageFilename T1 ≠ pageFilename T2 := by
  intro h
  apply hne
  have hd : T1.data ++ (".txt" : String).data =
      T2.data ++ (".txt" : String).data := by
    have h2d := congrArg String.data h
    simpa [pageFilename, String.data_append] using h2d
  exact String.ext (List.append_cancel_right hd)

/-- Witness for C9 at titles "A" and "B". -/
theorem filename_injective_witness :
    pageFilename "A" ≠ pageFilename "B" :=
  filename_injective "A" "B" (by decide) (by decide) (by decide)

/-- C10: whenever `loadPage title` succeeds, the returned page's Title is
exactly the requested title and its Body is the full content of the file
`<title>.txt` in the current state. -/
theorem load_page_exact (fs : FS) (title : String) (p : Page)
    (h : loadPage fs title = some p) :
    p.Title = title ∧
    ∃ f, fs.files.lookup (pageFilename title) = some f ∧
      p.Body = f.content := by
  unfold loadPage at h
  cases hr : readFile fs (pageFilename title) with
  | none =>
    rw [hr] at h
    exact absurd h (by simp)
  | some body =>
    rw [hr] at h
    simp only [Option.some.injEq] at h
    subst h
    unfold readFile at hr
    by_cases hm : pageFilename title ∈ fs.readErr
    · rw [if_pos hm] at hr
      exact absurd hr (by simp)
    · rw [if_neg hm] at hr
      obtain ⟨f, hf, hfc⟩ := Option.map_eq_some'.mp hr
      exact ⟨rfl, f, hf, hfc.symm⟩

/-- Witness for C10 on a one-file state. -/
theorem load_page_exact_witness :
    (⟨"A", [7]⟩ : Page).Title = "A" ∧
    ∃ f, (⟨[("A.txt", ⟨[7], 0o600⟩)], [], []⟩ : FS).files.lookup
        (pageFilename "A") = some f ∧
      (⟨"A", [7]⟩ : Page).Body = f.content :=
  load_page_exact ⟨[("A.txt", ⟨[7], 0o600⟩)], [], []⟩ "A" ⟨"A", [7]⟩ rfl

end GoWiki
